import Mathlib

/-!
Shallow embedding of the entity-access orchestrator mixin of
`moleculer-database` (`module.exports = function (mixinOpts) { ... }`).

The JavaScript source is embedded as pure Lean functions:

* JS numbers that occur in the pagination logic are modelled as `JSNum`
  (an integer or `NaN`); string-encoded numerics are coerced with
  `jsStringToNumber`, a model of `Number()` restricted to integer-literal
  strings (the only shapes the pagination fields can meaningfully carry).
* JS objects are modelled as association lists; `delete obj[k]` removes the
  key, and `obj[k] = v` (`mapSet`/`qSet`) updates in place or appends,
  matching JS property-insertion order, which the mapping claims depend on.
* Asynchronous collaborators (the adapter, the validator, the result
  transformer) are modelled as explicit function parameters; the sequence of
  adapter/validator invocations performed by an operation is returned as an
  explicit event trace where a claim is about call ordering.
-/

/-- A JavaScript number as it appears in the pagination logic: a finite
integer or `NaN`. -/
inductive JSNum where
  | num (v : Int)
  | nan
deriving DecidableEq, Repr

/-- Truthiness of a JS number: `0` and `NaN` are falsy. -/
def JSNum.truthy : JSNum → Bool
  | .num v => v != 0
  | .nan => false

/-- A raw pagination parameter as supplied by a caller: either already a
number or a string (the source coerces strings with `Number()`). -/
inductive PParam where
  | pnum (n : JSNum)
  | pstr (s : String)
deriving DecidableEq, Repr

/-- Accumulating decimal parser over a character list; fails on the first
non-digit character. -/
def parseNatDigits : List Char → Nat → Option Nat
  | [], acc => some acc
  | c :: rest, acc =>
    if c.isDigit then parseNatDigits rest (acc * 10 + (c.toNat - 48)) else none

/-- Model of JavaScript `Number()` on the strings that can reach the
pagination fields: the empty string coerces to `0`, an (optionally signed)
integer literal to its value, anything else to `NaN`. -/
def jsStringToNumber (s : String) : JSNum :=
  match s.data with
  | [] => JSNum.num 0
  | '-' :: c :: rest =>
    match parseNatDigits (c :: rest) 0 with
    | some n => JSNum.num (-(n : Int))
    | none => JSNum.nan
  | l =>
    match parseNatDigits l 0 with
    | some n => JSNum.num (n : Int)
    | none => JSNum.nan

/-- Lines 129-132 of the source: coerce a field to a number if it is a
string, keep it as is otherwise; an absent field stays absent. -/
def coerceNum : Option PParam → Option JSNum
  | none => none
  | some (.pnum n) => some n
  | some (.pstr s) => some (jsStringToNumber s)

/-- Truthiness of a possibly-absent JS number (`undefined` is falsy). -/
def truthyO : Option JSNum → Bool
  | none => false
  | some n => n.truthy

/-- JS `>` between a possibly-absent number and an integer bound:
comparisons against `undefined` or `NaN` are false. -/
def gtNum : Option JSNum → Int → Bool
  | none, _ => false
  | some .nan, _ => false
  | some (.num v), m => v > m

/-- JS `x - 1` on a possibly-absent number (`undefined - 1` is `NaN`). -/
def jsSub1 : Option JSNum → JSNum
  | none => .nan
  | some .nan => .nan
  | some (.num v) => .num (v - 1)

/-- JS `*` between a number and a possibly-absent number. -/
def jsMul : JSNum → Option JSNum → JSNum
  | .nan, _ => .nan
  | _, none => .nan
  | _, some .nan => .nan
  | .num a, some (.num b) => .num (a * b)

/-- The raw pagination fields of the incoming `params` object (the other
fields handled by `sanitizeParams` — `query`, `sort`, `fields`, `populate`,
`searchFields` — are normalized independently of these four and play no
role in the pagination claims). -/
structure Params where
  limit : Option PParam := none
  offset : Option PParam := none
  page : Option PParam := none
  pageSize : Option PParam := none
deriving DecidableEq, Repr

/-- The pagination fields of the sanitized query plan. -/
structure Plan where
  limit : Option JSNum := none
  offset : Option JSNum := none
  page : Option JSNum := none
  pageSize : Option JSNum := none
deriving DecidableEq, Repr

/-- The mixin options consulted by `sanitizeParams`. -/
structure MixinOpts where
  defaultPageSize : Int
  maxLimit : Int
deriving DecidableEq, Repr

/-- The `opts` argument of `sanitizeParams`. -/
structure SanitizeOpts where
  removeLimit : Bool := false
  list : Bool := false
deriving DecidableEq, Repr

/-- The string-to-number coercions at the top of `sanitizeParams`
(lines 129-132). -/
def coercePlan (params : Params) : Plan :=
  { limit := coerceNum params.limit
    offset := coerceNum params.offset
    page := coerceNum params.page
    pageSize := coerceNum params.pageSize }

/-- Lines 143-150: `if (p.limit) delete p.limit;` and likewise for the other
three pagination fields — a field is deleted only when its value is truthy. -/
def removeLimitStep (p : Plan) : Plan :=
  { limit := if truthyO p.limit then none else p.limit
    offset := if truthyO p.offset then none else p.offset
    page := if truthyO p.page then none else p.page
    pageSize := if truthyO p.pageSize then none else p.pageSize }

/-- Line 154: `if (!p.pageSize) p.pageSize = mixinOpts.defaultPageSize;`. -/
def defaultPageSizeStep (m : MixinOpts) (p : Plan) : Plan :=
  if truthyO p.pageSize then p else { p with pageSize := some (.num m.defaultPageSize) }

/-- Line 157: `if (!p.page) p.page = 1;`. -/
def defaultPageStep (p : Plan) : Plan :=
  if truthyO p.page then p else { p with page := some (.num 1) }

/-- Lines 160-161: clamp `pageSize` to `maxLimit` when `maxLimit > 0`. -/
def clampPageSizeStep (m : MixinOpts) (p : Plan) : Plan :=
  if 0 < m.maxLimit ∧ gtNum p.pageSize m.maxLimit then
    { p with pageSize := some (.num m.maxLimit) }
  else p

/-- Lines 164-165: `p.limit = p.pageSize; p.offset = (p.page - 1) * p.pageSize;`. -/
def computeLimitOffsetStep (p : Plan) : Plan :=
  { p with limit := p.pageSize, offset := some (jsMul (jsSub1 p.page) p.pageSize) }

/-- Lines 152-166: the `list` post-processing mode of `sanitizeParams`. -/
def listStep (m : MixinOpts) (p : Plan) : Plan :=
  computeLimitOffsetStep (clampPageSizeStep m (defaultPageStep (defaultPageSizeStep m p)))

/-- Lines 168-169: clamp a bare `limit` to `maxLimit` when `maxLimit > 0`. -/
def clampLimitStep (m : MixinOpts) (p : Plan) : Plan :=
  if 0 < m.maxLimit ∧ gtNum p.limit m.maxLimit then
    { p with limit := some (.num m.maxLimit) }
  else p

/-- `sanitizeParams(params, opts)` (lines 127-172), restricted to the
pagination fields: coerce, then either strip pagination (`removeLimit`,
which returns immediately), or apply `list`-mode pagination math followed by
the bare `limit` clamp. -/
def sanitizeParams (m : MixinOpts) (params : Params) (opts : SanitizeOpts) : Plan :=
  let p := coercePlan params
  if opts.removeLimit then removeLimitStep p
  else clampLimitStep m (if opts.list then listStep m p else p)

/-- A value inside a query filter: a plain id value or an `$in` list of id
values (the two shapes `resolveEntities` writes into the filter). -/
inductive QVal where
  | qint (v : Int)
  | qin (l : List Int)
deriving DecidableEq, Repr

/-- A query filter: a JS object mapping field names to filter values,
modelled as an association list in property-insertion order. -/
abbrev Query := List (String × QVal)

/-- JS object assignment `q[k] = v` on a filter: update in place when the
key exists, append otherwise. -/
def qSet (q : Query) (k : String) (v : QVal) : Query :=
  if q.any (fun p => p.1 = k) then
    q.map (fun p => if p.1 = k then (k, v) else p)
  else q ++ [(k, v)]

/-- The `scope` field of a params object: absent (`undefined`), the
sentinel `false`, a single scope name, or a sequence of scope names. -/
inductive ScopeField where
  | undef
  | fls
  | name (s : String)
  | names (l : List String)
deriving DecidableEq, Repr

/-- JS truthiness of the `scope` field: `undefined` and `false` are falsy,
a string is truthy iff non-empty, an array is always truthy (including the
empty array). -/
def scopeTruthy : ScopeField → Bool
  | .undef => false
  | .fls => false
  | .name s => s ≠ ""
  | .names _ => true

/-- A registered scope: a static filter fragment (merged with
`_.defaultsDeep`, existing filter keys winning) or a filter-transforming
function. -/
inductive Scope where
  | frag (f : Query)
  | func (f : Query → Query)

/-- The service settings consulted by `_applyScopes`. -/
structure Settings where
  defaultScopes : List String
  scopes : List (String × Scope)

/-- `_.defaultsDeep(query, frag)`: keys already in `query` win, missing
keys are filled from `frag` (modelled at the top level of the filter). -/
def defaultsMerge (q : Query) (frag : Query) : Query :=
  q ++ frag.filter (fun kv => ¬ q.any (fun kv2 => kv2.1 = kv.1))

/-- Lines 100-105 of `_applyScopes`: the active scope list — the explicit
`scope` field normalized to an array when truthy; otherwise the default
scopes unless `scope` is strictly `false`, in which case `null`. -/
def computeScopes (defaultScopes : List String) (sf : ScopeField) : Option (List String) :=
  if scopeTruthy sf then
    some (match sf with
      | .names l => l
      | .name s => [s]
      | .undef => []
      | .fls => [])
  else if sf ≠ ScopeField.fls then some defaultScopes
  else none

/-- `this.settings.scopes[scopeName]`. -/
def lookupScope (l : List (String × Scope)) (n : String) : Option Scope :=
  (l.find? (fun p => p.1 = n)).map (fun p => p.2)

/-- Lines 108-114: fold the active scopes over the filter — unknown scope
names are skipped, functions replace the filter, fragments are merged as
defaults. -/
def foldScopes (settings : Settings) (scopes : List String) (q : Query) : Query :=
  scopes.foldl
    (fun query scopeName =>
      match lookupScope settings.scopes scopeName with
      | none => query
      | some (.frag f) => defaultsMerge query f
      | some (.func f) => f query)
    q

/-- The fields of a params object read by `_applyScopes`. -/
structure ScopedParams where
  query : Query
  scope : ScopeField

/-- `_applyScopes(params, ctx)` (lines 99-118): compute the active scope
list and, when it is non-null and non-empty, replace `params.query` by the
folded filter. -/
def applyScopes (settings : Settings) (params : ScopedParams) : ScopedParams :=
  match computeScopes settings.defaultScopes params.scope with
  | some scopes =>
    if scopes.length > 0 then
      { params with query := foldScopes settings scopes params.query }
    else params
  | none => params

/-- An entity or payload: a JS object mapping field names to (id-sized)
integer values, in property-insertion order. -/
abbrev Obj := List (String × Int)

/-- Property read `e[k]`: `none` models `undefined`. -/
def getField (e : Obj) (k : String) : Option Int :=
  (e.find? (fun p => p.1 = k)).map (fun p => p.2)

/-- `k in e`: whether the object has the property. -/
def hasKey (e : Obj) (k : String) : Bool :=
  e.any (fun p => p.1 = k)

/-- `delete e[k]`. -/
def objDelete (e : Obj) (k : String) : Obj :=
  e.filter (fun p => p.1 ≠ k)

/-- The `$primaryField` descriptor: logical field name, storage column
name, and whether id values are secure (encoded at the boundary). -/
structure PrimaryField where
  name : String
  columnName : String
  secure : Bool
deriving DecidableEq, Repr

/-- The id value extracted from `params[primaryField.name]` by
`_getIDFromParams`: missing (`null`/`undefined`), a single value, or an
array of values. -/
inductive IdInput where
  | missing
  | single (v : Int)
  | multi (l : List Int)
deriving DecidableEq, Repr

/-- The error conditions surfaced by the orchestrator: the missing-id
client error, `EntityNotFoundError` carrying the original id value, and a
failure of the validation collaborator. -/
inductive DbError where
  | missingId
  | entityNotFound (origId : IdInput)
  | validationFailed
deriving DecidableEq, Repr

/-- The per-call `opts` consulted by `resolveEntities` and by
`_sanitizeID`. -/
structure ResolveOpts where
  throwIfNotExist : Bool := false
  transform : Bool := true
  secureID : Option Bool := none

/-- `_sanitizeID(id, opts)` (lines 573-580): an explicit per-call
`secureID` option overrides the field policy; otherwise decode iff the
primary field is secure. -/
def sanitizeID (pf : PrimaryField) (decodeID : Int → Int) (opts : ResolveOpts) (id : Int) : Int :=
  match opts.secureID with
  | some b => if b then decodeID id else id
  | none => if pf.secure then decodeID id else id

/-- The params fields read by `resolveEntities`. -/
structure ResolveParams where
  id : IdInput
  query : Query
  scope : ScopeField
  mapping : Bool

/-- The decoded id list of a resolve call (line 291). -/
def resolveIds (pf : PrimaryField) (decodeID : Int → Int) (opts : ResolveOpts) :
    IdInput → List Int
  | .missing => []
  | .single v => [sanitizeID pf decodeID opts v]
  | .multi l => l.map (sanitizeID pf decodeID opts)

/-- The filter a resolve call hands to `adapter.find` (lines 294-303):
scopes applied to the caller's filter, then the primary column set to the
decoded id (single) or to an `$in` list (multi). -/
def resolveFindQuery (pf : PrimaryField) (decodeID : Int → Int) (settings : Settings)
    (params : ResolveParams) (opts : ResolveOpts) : Query :=
  let sp := applyScopes settings ⟨params.query, params.scope⟩
  let ids := resolveIds pf decodeID opts params.id
  match params.id with
  | .multi _ => qSet sp.query pf.columnName (.qin ids)
  | _ => qSet sp.query pf.columnName (.qint (ids.headD 0))

/-- The mapping key of one adapter-returned entity (lines 324-325): the
primary column value of the untransformed entity, re-encoded when the
primary field is secure (`none` models an `undefined` key). -/
def encodeKey (pf : PrimaryField) (encodeID : Int → Int) (raw : Obj) : Option Int :=
  let idv := getField raw pf.columnName
  if pf.secure then idv.map encodeID else idv

/-- JS object assignment `map[id] = doc` for the mapping accumulator. -/
def mapSet (m : List (Option Int × Obj)) (k : Option Int) (v : Obj) :
    List (Option Int × Obj) :=
  if m.any (fun p => p.1 = k) then
    m.map (fun p => if p.1 = k then (k, v) else p)
  else m ++ [(k, v)]

/-- Property read `map[k]` on the mapping accumulator. -/
def mlookup (m : List (Option Int × Obj)) (k : Option Int) : Option Obj :=
  (m.find? (fun p => p.1 = k)).map (fun p => p.2)

/-- Lines 322-329: the mapping built by `result.reduce` over the
transformed docs paired positionally with the untransformed snapshot. -/
def buildMapping (pf : PrimaryField) (encodeID : Int → Int) (pairs : List (Obj × Obj)) :
    List (Option Int × Obj) :=
  pairs.foldl (fun map pr => mapSet map (encodeKey pf encodeID pr.2) pr.1) []

/-- The value a resolve call returns: a single (possibly absent) entity, a
sequence, or an id-keyed mapping. -/
inductive ResolveResult where
  | single (e : Option Obj)
  | many (l : List Obj)
  | mapping (m : List (Option Int × Obj))
deriving DecidableEq, Repr

/-- `resolveEntities(ctx, params, opts)` (lines 283-335). The adapter's
`find` and the per-entity result transform are explicit function
parameters; `transformResult` is applied entity-wise, which keeps the
transformed list positionally aligned with the untransformed snapshot
(`const unTransformedRes = Array.from(result)`). -/
def resolveEntities (pf : PrimaryField) (decodeID encodeID : Int → Int)
    (find : Query → List Obj) (tf : Obj → Obj) (settings : Settings)
    (params : ResolveParams) (opts : ResolveOpts) : Except DbError ResolveResult :=
  if params.id = IdInput.missing then .error .missingId
  else
    let q := resolveFindQuery pf decodeID settings params opts
    let result := find q
    if result.isEmpty && opts.throwIfNotExist then .error (.entityNotFound params.id)
    else
      let transformed := if opts.transform then result.map tf else result
      if params.mapping then
        .ok (.mapping (buildMapping pf encodeID (transformed.zip result)))
      else
        match params.id with
        | .multi _ => .ok (.many transformed)
        | _ => .ok (.single transformed.head?)

/-- The transformed/untransformed entity pairs a resolve call feeds to the
mapping step: the adapter result, transformed entity-wise when requested,
zipped positionally with the untransformed snapshot. -/
def resolvePairs (pf : PrimaryField) (decodeID : Int → Int) (find : Query → List Obj)
    (tf : Obj → Obj) (settings : Settings) (params : ResolveParams) (opts : ResolveOpts) :
    List (Obj × Obj) :=
  let result := find (resolveFindQuery pf decodeID settings params opts)
  (if opts.transform then result.map tf else result).zip result

/-- A concrete adapter `find` for witnesses: filter a fixed store by the
query (equality for plain values, membership for `$in` lists). -/
def matchesQ (e : Obj) : Query → Bool
  | [] => true
  | (k, QVal.qint v) :: rest => decide (getField e k = some v) && matchesQ e rest
  | (k, QVal.qin l) :: rest =>
    (match getField e k with
     | some v => l.contains v
     | none => false) && matchesQ e rest

/-- Store-backed adapter `find` used to instantiate witnesses. -/
def storeFind (store : List Obj) (q : Query) : List Obj :=
  store.filter (fun e => matchesQ e q)

/-- One collaborator invocation performed by a mutating operation, in
program order: an adapter read (`find` inside the existence check), a call
to the validation collaborator, or a mutating adapter call. -/
inductive OpEvent where
  | evFind (q : Query)
  | evValidate (vtype : String) (payload : Obj)
  | evUpdateById (id : Int) (payload : Obj) (raw : Bool)
  | evReplaceById (id : Int) (payload : Obj)
  | evRemoveById (id : Int)
deriving DecidableEq, Repr

/-- Whether the event is a call into the adapter. -/
def isAdapterEvent : OpEvent → Bool
  | .evValidate _ _ => false
  | _ => true

/-- Whether the event is a mutating adapter call. -/
def isMutationEvent : OpEvent → Bool
  | .evUpdateById _ _ _ => true
  | .evReplaceById _ _ => true
  | .evRemoveById _ => true
  | _ => false

/-- The `resolveEntities` sub-call made by update/replace/remove for the
existence check: `{ transform: false, throwIfNotExist: true }`, with no
`secureID` forwarded. The update-style params objects carry no `query`,
`scope` or `mapping` fields, so those read as absent. -/
def existenceCheckOpts : ResolveOpts := ⟨true, false, none⟩

/-- The resolve params of the existence check for the given id value. -/
def existenceCheckParams (idv : Int) : ResolveParams := ⟨.single idv, [], .undef, false⟩

/-- Lines 406-408 (and identically 442-444): delete the primary field's
storage column name from the payload and, when distinct, its logical name
as well. -/
def stripPrimaryKeys (pf : PrimaryField) (p : Obj) : Obj :=
  let p1 := objDelete p pf.columnName
  if pf.columnName ≠ pf.name then objDelete p1 pf.name else p1

/-- `updateEntity(ctx, params, opts)` (lines 388-419), with the `$raw`
marker modelled as the separate flag `rawFlag` (the source deletes the
marker from the payload before any further use, so it reaches neither the
validator nor the adapter). Returns the trace of collaborator calls and,
on success, the `(id, payload, raw)` triple passed to
`adapter.updateById`. -/
def updateEntity (pf : PrimaryField) (decodeID encodeID : Int → Int)
    (find : Query → List Obj) (tf : Obj → Obj)
    (validate : String → Obj → Except DbError Obj) (settings : Settings)
    (payload : Obj) (rawFlag : Bool) (opts : ResolveOpts) :
    List OpEvent × Except DbError (Int × Obj × Bool) :=
  match getField payload pf.name with
  | none => ([], .error .missingId)
  | some idv =>
    let q := resolveFindQuery pf decodeID settings (existenceCheckParams idv) existenceCheckOpts
    match resolveEntities pf decodeID encodeID find tf settings
        (existenceCheckParams idv) existenceCheckOpts with
    | .error e => ([.evFind q], .error e)
    | .ok _ =>
      let valEvents : List OpEvent := if rawFlag then [] else [.evValidate "update" payload]
      match (if rawFlag then .ok payload else validate "update" payload :
          Except DbError Obj) with
      | .error e => ([.evFind q] ++ valEvents, .error e)
      | .ok vparams =>
        let sid := sanitizeID pf decodeID opts idv
        let p2 := stripPrimaryKeys pf vparams
        ([.evFind q] ++ valEvents ++ [.evUpdateById sid p2 rawFlag],
         .ok (sid, p2, rawFlag))

/-- `replaceEntity(ctx, params, opts)` (lines 428-454): same existence
check, no raw escape, validates against type `replace`, strips the primary
fields, calls `adapter.replaceById`. -/
def replaceEntity (pf : PrimaryField) (decodeID encodeID : Int → Int)
    (find : Query → List Obj) (tf : Obj → Obj)
    (validate : String → Obj → Except DbError Obj) (settings : Settings)
    (payload : Obj) (opts : ResolveOpts) :
    List OpEvent × Except DbError (Int × Obj) :=
  match getField payload pf.name with
  | none => ([], .error .missingId)
  | some idv =>
    let q := resolveFindQuery pf decodeID settings (existenceCheckParams idv) existenceCheckOpts
    match resolveEntities pf decodeID encodeID find tf settings
        (existenceCheckParams idv) existenceCheckOpts with
    | .error e => ([.evFind q], .error e)
    | .ok _ =>
      match validate "replace" payload with
      | .error e => ([.evFind q, .evValidate "replace" payload], .error e)
      | .ok vparams =>
        let sid := sanitizeID pf decodeID opts idv
        let p2 := stripPrimaryKeys pf vparams
        ([.evFind q, .evValidate "replace" payload, .evReplaceById sid p2],
         .ok (sid, p2))

/-- `removeEntity(ctx, params, opts)` (lines 463-497): existence check,
validation against type `remove`, then either the soft-delete
`adapter.updateById(id, params)` or the hard-delete
`adapter.removeById(id)`; on success the returned value is `origID`, the
id value read from the caller's params before `_sanitizeID`. -/
def removeEntity (pf : PrimaryField) (decodeID encodeID : Int → Int)
    (find : Query → List Obj) (tf : Obj → Obj)
    (validate : String → Obj → Except DbError Obj) (settings : Settings)
    (softDelete : Bool) (payload : Obj) (opts : ResolveOpts) :
    List OpEvent × Except DbError Int :=
  match getField payload pf.name with
  | none => ([], .error .missingId)
  | some idv =>
    let q := resolveFindQuery pf decodeID settings (existenceCheckParams idv) existenceCheckOpts
    match resolveEntities pf decodeID encodeID find tf settings
        (existenceCheckParams idv) existenceCheckOpts with
    | .error e => ([.evFind q], .error e)
    | .ok _ =>
      match validate "remove" payload with
      | .error e => ([.evFind q, .evValidate "remove" payload], .error e)
      | .ok vparams =>
        let sid := sanitizeID pf decodeID opts idv
        if softDelete then
          ([.evFind q, .evValidate "remove" payload, .evUpdateById sid vparams false],
           .ok idv)
        else
          ([.evFind q, .evValidate "remove" payload, .evRemoveById sid], .ok idv)

/-- Checks that no mutating adapter call occurs before a validation of the
given type and payload: `true` when every mutation event in the trace is
preceded by the validation event. -/
def validatedBeforeMutation (vt : String) (p : Obj) : List OpEvent → Bool
  | [] => true
  | OpEvent.evValidate t q :: rest =>
    if t = vt ∧ q = p then true else validatedBeforeMutation vt p rest
  | e :: rest => if isMutationEvent e then false else validatedBeforeMutation vt p rest

/-- The state of the adapter registry `this.adapters`: the hash-keyed
entries (adapter instances identified by their allocation number), the
next fresh allocation number, and the list of adapters for which
`_connect` has been initiated. -/
structure RegistryState where
  adapters : List (String × Nat)
  nextId : Nat
  connects : List Nat
deriving DecidableEq, Repr

/-- `this.adapters.get(hash)`. -/
def regLookup (l : List (String × Nat)) (h : String) : Option Nat :=
  (l.find? (fun p => p.1 = h)).map (fun p => p.2)

/-- Number of registry entries stored under a hash. -/
def countKey (l : List (String × Nat)) (h : String) : Nat :=
  (l.filter (fun p => p.1 = h)).length

/-- `getAdapterByContext` (lines 45-47): the default tenant hash. -/
def getAdapterByContext : Unit → String := fun _ => "default"

/-- The synchronous prefix of `getAdapter(ctx)` (lines 24-35): look the
hash up; on a miss, resolve and init a fresh adapter, store the entry, and
initiate `_connect`. Everything up to `await this._connect(adapter)` runs
without a suspension point, so under the cooperative single-threaded
scheduler this step is atomic: a concurrent second caller observes the
entry stored by the first and returns it. -/
def getAdapter (hash : String) (s : RegistryState) : Nat × RegistryState :=
  match regLookup s.adapters hash with
  | some a => (a, s)
  | none =>
    (s.nextId,
     ⟨s.adapters ++ [(hash, s.nextId)], s.nextId + 1, s.connects ++ [s.nextId]⟩)

/-- `n` interleaved `getAdapter` calls on the same hash, sequentialized in
arrival order (each call's pre-`await` section is atomic under the
event-loop model); returns the adapters handed to the callers and the
final registry state. -/
def runCalls (hash : String) : Nat → RegistryState → List Nat × RegistryState
  | 0, s => ([], s)
  | n + 1, s =>
    let r := getAdapter hash s
    let rest := runCalls hash n r.2
    (r.1 :: rest.1, rest.2)

/-- The settlement of one disconnect promise: the (abstract) time at which
it settles and its outcome (`none` = fulfilled, `some msg` = rejected). -/
structure POutcome where
  time : Nat
  err : Option String
deriving DecidableEq, Repr

/-- The earliest-settling rejected promise of a list (ties broken towards
the earlier index), or `none` when every promise fulfils: the promise
whose rejection `Promise.all` adopts. -/
def earliestFailure : List POutcome → Option POutcome
  | [] => none
  | o :: rest =>
    match earliestFailure rest with
    | none => if o.err.isSome then some o else none
    | some b => if o.err.isSome && o.time ≤ b.time then some o else some b

/-- The settle time of the last promise of a list. -/
def maxSettleTime (l : List POutcome) : Nat :=
  l.foldr (fun o acc => max o.time acc) 0

/-- `Promise.all` over already-started promises: fulfils once every
promise has fulfilled, but rejects with the earliest rejection at the
moment that single promise rejects, without waiting for the rest. -/
def promiseAll (l : List POutcome) : POutcome :=
  match earliestFailure l with
  | some f => ⟨f.time, f.err⟩
  | none => ⟨maxSettleTime l, none⟩

/-- A registered adapter as seen by `disconnectAll`: whether it implements
`disconnect`, and how that call settles. -/
structure DAdapter where
  hasDisc : Bool
  outcome : POutcome
deriving DecidableEq, Repr

/-- `_disconnect(adapter)` (lines 77-80): call `disconnect` when the
adapter has one, otherwise an already-resolved promise. -/
def discOutcome (a : DAdapter) : POutcome :=
  if a.hasDisc then a.outcome else ⟨0, none⟩

/-- `disconnectAll()` (lines 85-91): snapshot the registered adapters,
clear the registry, start `_disconnect` on every one of them, and return
`Promise.all` of the resulting promises. The result is the cleared
registry, the list of initiated disconnect settlements (one per adapter,
in registry order), and the aggregate settlement. -/
def disconnectAll (reg : List (String × DAdapter)) :
    List (String × DAdapter) × List POutcome × POutcome :=
  let outs := (reg.map (fun p => p.2)).map discOutcome
  ([], outs, promiseAll outs)

theorem defaultPageSizeStep_page (m : MixinOpts) (p : Plan) :
    (defaultPageSizeStep m p).page = p.page := by
  unfold defaultPageSizeStep; split <;> rfl

theorem defaultPageSizeStep_pageSize_absent (m : MixinOpts) (p : Plan)
    (h : p.pageSize = none) :
    (defaultPageSizeStep m p).pageSize = some (JSNum.num m.defaultPageSize) := by
  unfold defaultPageSizeStep
  rw [h]
  rfl

theorem defaultPageStep_pageSize (p : Plan) :
    (defaultPageStep p).pageSize = p.pageSize := by
  unfold defaultPageStep; split <;> rfl

theorem defaultPageStep_page_absent (p : Plan) (h : p.page = none) :
    (defaultPageStep p).page = some (JSNum.num 1) := by
  unfold defaultPageStep
  rw [h]
  rfl

theorem clampPageSizeStep_page (m : MixinOpts) (p : Plan) :
    (clampPageSizeStep m p).page = p.page := by
  unfold clampPageSizeStep; split <;> rfl

theorem clampPageSizeStep_le (m : MixinOpts) (p : Plan) (h : 0 < m.maxLimit) :
    gtNum (clampPageSizeStep m p).pageSize m.maxLimit = false := by
  unfold clampPageSizeStep
  split
  · simp [gtNum]
  · next hc =>
    rcases Bool.eq_false_or_eq_true (gtNum p.pageSize m.maxLimit) with ht | hf
    · exact absurd ⟨h, ht⟩ hc
    · exact hf

theorem listStep_limit (m : MixinOpts) (p : Plan) :
    (listStep m p).limit = (listStep m p).pageSize := rfl

theorem listStep_offset (m : MixinOpts) (p : Plan) :
    (listStep m p).offset
      = some (jsMul (jsSub1 (listStep m p).page) (listStep m p).pageSize) := rfl

theorem listStep_le (m : MixinOpts) (p : Plan) (h : 0 < m.maxLimit) :
    gtNum (listStep m p).pageSize m.maxLimit = false :=
  clampPageSizeStep_le m _ h

theorem clampLimit_after_list (m : MixinOpts) (p : Plan) :
    clampLimitStep m (listStep m p) = listStep m p := by
  unfold clampLimitStep
  split
  · next hc =>
    obtain ⟨hpos, hgt⟩ := hc
    rw [listStep_limit, listStep_le m p hpos] at hgt
    exact absurd hgt (by simp)
  · rfl

theorem sanitize_list_eq (m : MixinOpts) (params : Params) :
    sanitizeParams m params ⟨false, true⟩ = listStep m (coercePlan params) := by
  exact clampLimit_after_list m (coercePlan params)

/-- C2. In `list` mode, sanitization defaults `pageSize` (to the configured
default, clamped by `maxLimit`) when absent, defaults `page` to `1` when
absent, clamps `pageSize` to `maxLimit` when `maxLimit > 0`, and derives
`limit = pageSize` and `offset = (page - 1) * pageSize`; concretely,
`{page: "2", pageSize: "10"}` with `maxLimit = 50` yields
`{limit: 10, offset: 10, page: 2, pageSize: 10}`. -/
theorem sanitize_list_mode_spec (m : MixinOpts) (params : Params) :
    ((sanitizeParams m params ⟨false, true⟩).limit
        = (sanitizeParams m params ⟨false, true⟩).pageSize)
  ∧ ((sanitizeParams m params ⟨false, true⟩).offset
        = some (jsMul (jsSub1 ((sanitizeParams m params ⟨false, true⟩).page))
            ((sanitizeParams m params ⟨false, true⟩).pageSize)))
  ∧ (params.page = none →
      (sanitizeParams m params ⟨false, true⟩).page = some (JSNum.num 1))
  ∧ (params.pageSize = none →
      (sanitizeParams m params ⟨false, true⟩).pageSize
        = some (JSNum.num
            (if 0 < m.maxLimit ∧ m.defaultPageSize > m.maxLimit then m.maxLimit
             else m.defaultPageSize)))
  ∧ (0 < m.maxLimit →
      gtNum (sanitizeParams m params ⟨false, true⟩).pageSize m.maxLimit = false)
  ∧ (∀ d : Int,
      sanitizeParams ⟨d, 50⟩ ⟨none, none, some (PParam.pstr "2"), some (PParam.pstr "10")⟩
          ⟨false, true⟩
        = ⟨some (JSNum.num 10), some (JSNum.num 10), some (JSNum.num 2),
           some (JSNum.num 10)⟩) := by
  rw [sanitize_list_eq]
  refine ⟨listStep_limit m _, listStep_offset m _, ?_, ?_, listStep_le m _, ?_⟩
  · intro h
    have hc : (coercePlan params).page = none := by
      simp [coercePlan, h, coerceNum]
    show (clampPageSizeStep m (defaultPageStep (defaultPageSizeStep m (coercePlan params)))).page
      = some (JSNum.num 1)
    rw [clampPageSizeStep_page, defaultPageStep_page_absent]
    rw [defaultPageSizeStep_page, hc]
  · intro h
    have hc : (coercePlan params).pageSize = none := by
      simp [coercePlan, h, coerceNum]
    have h2 : (defaultPageStep (defaultPageSizeStep m (coercePlan params))).pageSize
        = some (JSNum.num m.defaultPageSize) := by
      rw [defaultPageStep_pageSize, defaultPageSizeStep_pageSize_absent m _ hc]
    show (clampPageSizeStep m (defaultPageStep (defaultPageSizeStep m (coercePlan params)))).pageSize
      = _
    unfold clampPageSizeStep
    rw [h2]
    by_cases hgtb : 0 < m.maxLimit ∧ m.defaultPageSize > m.maxLimit
    · rw [if_pos ⟨hgtb.1, by simp [gtNum, hgtb.2]⟩, if_pos hgtb]
    · rw [if_neg (fun hcnd => hgtb ⟨hcnd.1, by simpa [gtNum] using hcnd.2⟩), h2, if_neg hgtb]
  · intro d
    rfl

/-- Closed instance of the `list`-mode sanitization theorem: with no
pagination fields supplied and `maxLimit = 50`, `page` defaults to `1` and
`pageSize` to the configured default. -/
theorem sanitize_list_mode_spec_witness :
    (sanitizeParams ⟨10, 50⟩ ⟨none, none, none, none⟩ ⟨false, true⟩).page
        = some (JSNum.num 1)
  ∧ (sanitizeParams ⟨10, 50⟩ ⟨none, none, none, none⟩ ⟨false, true⟩).pageSize
        = some (JSNum.num
            (if 0 < (50 : Int) ∧ (10 : Int) > 50 then (50 : Int) else (10 : Int))) :=
  ⟨(sanitize_list_mode_spec ⟨10, 50⟩ ⟨none, none, none, none⟩).2.2.1 rfl,
   (sanitize_list_mode_spec ⟨10, 50⟩ ⟨none, none, none, none⟩).2.2.2.1 rfl⟩

/-- C9, counterexample. `removeLimit` sanitization does not strip a
pagination field whose value coerces to `0`: the caller-supplied
`limit: "0"` coerces to the falsy number `0`, `if (p.limit) delete p.limit`
skips the delete, and the resulting plan still contains `limit = 0`. -/
theorem removeLimit_zero_counterexample :
    (sanitizeParams ⟨10, 50⟩ ⟨some (PParam.pstr "0"), none, none, none⟩ ⟨true, false⟩).limit
        = some (JSNum.num 0)
  ∧ (sanitizeParams ⟨10, 50⟩ ⟨some (PParam.pstr "0"), none, none, none⟩ ⟨true, false⟩).limit
        ≠ none := by
  exact ⟨rfl, by decide⟩

/-- C9, amended. `removeLimit` sanitization deletes each pagination field
exactly when its coerced value is truthy; a field supplied as `0`, as a
string coercing to `0`, or as a non-numeric string (`NaN`) survives with
its coerced falsy value. -/
theorem removeLimit_truthy_amended (m : MixinOpts) (params : Params) :
    (truthyO (coerceNum params.limit) = true →
      (sanitizeParams m params ⟨true, false⟩).limit = none)
  ∧ (truthyO (coerceNum params.limit) = false →
      (sanitizeParams m params ⟨true, false⟩).limit = coerceNum params.limit)
  ∧ (truthyO (coerceNum params.offset) = true →
      (sanitizeParams m params ⟨true, false⟩).offset = none)
  ∧ (truthyO (coerceNum params.offset) = false →
      (sanitizeParams m params ⟨true, false⟩).offset = coerceNum params.offset)
  ∧ (truthyO (coerceNum params.page) = true →
      (sanitizeParams m params ⟨true, false⟩).page = none)
  ∧ (truthyO (coerceNum params.page) = false →
      (sanitizeParams m params ⟨true, false⟩).page = coerceNum params.page)
  ∧ (truthyO (coerceNum params.pageSize) = true →
      (sanitizeParams m params ⟨true, false⟩).pageSize = none)
  ∧ (truthyO (coerceNum params.pageSize) = false →
      (sanitizeParams m params ⟨true, false⟩).pageSize = coerceNum params.pageSize) := by
  have hs : sanitizeParams m params ⟨true, false⟩ = removeLimitStep (coercePlan params) := rfl
  rw [hs]
  unfold removeLimitStep coercePlan
  refine ⟨fun h => ?_, fun h => ?_, fun h => ?_, fun h => ?_,
    fun h => ?_, fun h => ?_, fun h => ?_, fun h => ?_⟩ <;> simp [h]

/-- Closed instance of the amended `removeLimit` theorem: a truthy
`limit: "7"` is stripped, while the falsy `offset: "0"` survives as `0`. -/
theorem removeLimit_truthy_amended_witness :
    (sanitizeParams ⟨10, 50⟩ ⟨some (PParam.pstr "7"), some (PParam.pstr "0"), none, none⟩
        ⟨true, false⟩).limit = none
  ∧ (sanitizeParams ⟨10, 50⟩ ⟨some (PParam.pstr "7"), some (PParam.pstr "0"), none, none⟩
        ⟨true, false⟩).offset
      = coerceNum (some (PParam.pstr "0")) :=
  ⟨(removeLimit_truthy_amended ⟨10, 50⟩
      ⟨some (PParam.pstr "7"), some (PParam.pstr "0"), none, none⟩).1 (by decide),
   (removeLimit_truthy_amended ⟨10, 50⟩
      ⟨some (PParam.pstr "7"), some (PParam.pstr "0"), none, none⟩).2.2.2.1 (by decide)⟩

/-- C3, counterexample. A plan whose `scope` field is the empty sequence
does NOT get the configured default scopes: with `defaultScopes: ["active"]`
and a registered `active` scope fragment, `scope: []` is truthy, so the
explicit (empty) scope set is chosen and nothing is injected — whereas an
absent `scope` field does inject the default scope's clause. -/
theorem applyScopes_empty_seq_counterexample :
    (applyScopes ⟨["active"], [("active", Scope.frag [("status", QVal.qint 1)])]⟩
        ⟨[], ScopeField.names []⟩).query = []
  ∧ (applyScopes ⟨["active"], [("active", Scope.frag [("status", QVal.qint 1)])]⟩
        ⟨[], ScopeField.undef⟩).query = [("status", QVal.qint 1)] :=
  ⟨rfl, rfl⟩

/-- C3, amended. `_applyScopes` chooses the active scope set from the
explicit `scope` field when it is truthy — a non-empty string, or any
array including the empty array — normalizing it to a sequence; otherwise
it falls back to the configured default scopes unless `scope` is strictly
`false`, in which case no scopes are applied and the filter is untouched.
A plan whose scope field is an empty sequence therefore gets no scopes at
all (not the defaults), and scope clauses are injected only when the
active set is non-empty. -/
theorem applyScopes_active_scopes_amended (settings : Settings) (q : Query) :
    (applyScopes settings ⟨q, ScopeField.fls⟩ = ⟨q, ScopeField.fls⟩)
  ∧ (applyScopes settings ⟨q, ScopeField.names []⟩ = ⟨q, ScopeField.names []⟩)
  ∧ (∀ l, computeScopes settings.defaultScopes (ScopeField.names l) = some l)
  ∧ (∀ nm, nm ≠ "" →
      computeScopes settings.defaultScopes (ScopeField.name nm) = some [nm])
  ∧ (computeScopes settings.defaultScopes ScopeField.undef = some settings.defaultScopes)
  ∧ (computeScopes settings.defaultScopes (ScopeField.name "") = some settings.defaultScopes)
  ∧ (computeScopes settings.defaultScopes ScopeField.fls = none)
  ∧ (∀ sf l, computeScopes settings.defaultScopes sf = some l → l.length > 0 →
      applyScopes settings ⟨q, sf⟩ = ⟨foldScopes settings l q, sf⟩) := by
  refine ⟨rfl, rfl, fun l => rfl, fun nm h => ?_, rfl, rfl, rfl, fun sf l hc hl => ?_⟩
  · unfold computeScopes
    rw [if_pos (by simpa [scopeTruthy] using h)]
  · unfold applyScopes
    rw [hc]
    show (if l.length > 0 then ({ query := foldScopes settings l q, scope := sf } : ScopedParams)
          else ⟨q, sf⟩) = ⟨foldScopes settings l q, sf⟩
    rw [if_pos hl]

/-- Closed instance of the amended scope theorem: `scope: false` with
`defaultScopes: ["active"]` leaves the filter without any scope-injected
clause, a truthy scope name selects itself, and an applied default scope
folds its fragment into the filter. -/
theorem applyScopes_active_scopes_amended_witness :
    (applyScopes ⟨["active"], [("active", Scope.frag [("status", QVal.qint 1)])]⟩
        ⟨[], ScopeField.fls⟩ = ⟨[], ScopeField.fls⟩)
  ∧ (computeScopes ["active"] (ScopeField.name "visible") = some ["visible"])
  ∧ (applyScopes ⟨["active"], [("active", Scope.frag [("status", QVal.qint 1)])]⟩
        ⟨[], ScopeField.undef⟩
      = ⟨foldScopes ⟨["active"], [("active", Scope.frag [("status", QVal.qint 1)])]⟩
          ["active"] [], ScopeField.undef⟩) :=
  ⟨(applyScopes_active_scopes_amended
      ⟨["active"], [("active", Scope.frag [("status", QVal.qint 1)])]⟩ []).1,
   (applyScopes_active_scopes_amended
      ⟨["active"], [("active", Scope.frag [("status", QVal.qint 1)])]⟩ []).2.2.2.1
      "visible" (by decide),
   (applyScopes_active_scopes_amended
      ⟨["active"], [("active", Scope.frag [("status", QVal.qint 1)])]⟩ []).2.2.2.2.2.2.2
      ScopeField.undef ["active"] rfl (by decide)⟩

/-- C4. When a resolve call's adapter query returns no entities, the call
fails with `EntityNotFound` carrying the original id value if
`throwIfNotExist` was requested; otherwise, for a single (non-sequence) id
input without mapping, it returns the absence value (`undefined`). -/
theorem resolve_empty_result_spec (pf : PrimaryField) (dec enc : Int → Int)
    (find : Query → List Obj) (tf : Obj → Obj) (settings : Settings)
    (params : ResolveParams) (opts : ResolveOpts)
    (hempty : find (resolveFindQuery pf dec settings params opts) = [])
    (hid : params.id ≠ IdInput.missing) :
    (opts.throwIfNotExist = true →
      resolveEntities pf dec enc find tf settings params opts
        = .error (.entityNotFound params.id))
  ∧ (opts.throwIfNotExist = false → params.mapping = false →
      ∀ v, params.id = IdInput.single v →
        resolveEntities pf dec enc find tf settings params opts = .ok (.single none)) := by
  unfold resolveEntities
  rw [if_neg hid]
  dsimp only
  rw [hempty]
  constructor
  · intro ht
    rw [ht]
    rfl
  · intro ht hm v hv
    rw [ht, hm, hv]
    cases opts.transform <;> rfl

/-- Closed instance of the empty-resolve theorem: against an empty store,
resolving single id `9` fails with `EntityNotFound 9` when
`throwIfNotExist` is set and returns the absent value when it is not. -/
theorem resolve_empty_result_spec_witness :
    resolveEntities ⟨"id", "id", false⟩ id id (storeFind []) id ⟨[], []⟩
        ⟨.single 9, [], .undef, false⟩ ⟨true, true, none⟩
      = .error (.entityNotFound (IdInput.single 9))
  ∧ resolveEntities ⟨"id", "id", false⟩ id id (storeFind []) id ⟨[], []⟩
        ⟨.single 9, [], .undef, false⟩ ⟨false, true, none⟩
      = .ok (.single none) :=
  ⟨(resolve_empty_result_spec ⟨"id", "id", false⟩ id id (storeFind []) id ⟨[], []⟩
      ⟨.single 9, [], .undef, false⟩ ⟨true, true, none⟩ rfl (by decide)).1 rfl,
   (resolve_empty_result_spec ⟨"id", "id", false⟩ id id (storeFind []) id ⟨[], []⟩
      ⟨.single 9, [], .undef, false⟩ ⟨false, true, none⟩ rfl (by decide)).2 rfl rfl 9 rfl⟩

theorem hasKey_objDelete_self (p : Obj) (k : String) :
    hasKey (objDelete p k) k = false := by
  rw [Bool.eq_false_iff]
  intro hcon
  simp only [hasKey, objDelete, List.any_eq_true, List.mem_filter,
    decide_eq_true_eq] at hcon
  obtain ⟨x, ⟨hx, hne⟩, heq⟩ := hcon
  exact hne heq

theorem hasKey_objDelete_of_not (p : Obj) (k k' : String) (h : hasKey p k = false) :
    hasKey (objDelete p k') k = false := by
  rw [Bool.eq_false_iff] at h ⊢
  intro hcon
  apply h
  simp only [hasKey, objDelete, List.any_eq_true, List.mem_filter,
    decide_eq_true_eq] at hcon ⊢
  obtain ⟨x, ⟨hx, hne⟩, heq⟩ := hcon
  exact ⟨x, hx, heq⟩

theorem stripPrimaryKeys_spec (pf : PrimaryField) (p : Obj) :
    hasKey (stripPrimaryKeys pf p) pf.name = false
  ∧ hasKey (stripPrimaryKeys pf p) pf.columnName = false := by
  unfold stripPrimaryKeys
  dsimp only
  by_cases hne : pf.columnName ≠ pf.name
  · rw [if_pos hne]
    exact ⟨hasKey_objDelete_self _ _,
           hasKey_objDelete_of_not _ _ _ (hasKey_objDelete_self _ _)⟩
  · rw [if_neg hne]
    push_neg at hne
    constructor
    · rw [← hne]
      exact hasKey_objDelete_self _ _
    · exact hasKey_objDelete_self _ _

/-- C5. The payload an update or replace hands to the adapter's
`updateById`/`replaceById` contains neither the primary field's logical
name nor its storage column name, even when the caller supplied a changed
primary-key value in the payload. -/
theorem update_replace_strip_primary (pf : PrimaryField) (dec enc : Int → Int)
    (find : Query → List Obj) (tf : Obj → Obj)
    (validate : String → Obj → Except DbError Obj) (settings : Settings)
    (payload : Obj) (rawFlag : Bool) (opts : ResolveOpts) :
    (∀ sid outP r,
      (updateEntity pf dec enc find tf validate settings payload rawFlag opts).2
          = .ok (sid, outP, r) →
      hasKey outP pf.name = false ∧ hasKey outP pf.columnName = false)
  ∧ (∀ sid outP,
      (replaceEntity pf dec enc find tf validate settings payload opts).2
          = .ok (sid, outP) →
      hasKey outP pf.name = false ∧ hasKey outP pf.columnName = false) := by
  constructor
  · intro sid outP r hok
    unfold updateEntity at hok
    split at hok
    · exact absurd hok (by simp)
    · dsimp only at hok
      split at hok
      · exact absurd hok (by simp)
      · split at hok
        · exact absurd hok (by simp)
        · simp only [Except.ok.injEq, Prod.mk.injEq] at hok
          obtain ⟨-, houtP, -⟩ := hok
          rw [← houtP]
          exact stripPrimaryKeys_spec pf _
  · intro sid outP hok
    unfold replaceEntity at hok
    split at hok
    · exact absurd hok (by simp)
    · dsimp only at hok
      split at hok
      · exact absurd hok (by simp)
      · split at hok
        · exact absurd hok (by simp)
        · simp only [Except.ok.injEq, Prod.mk.injEq] at hok
          obtain ⟨-, houtP⟩ := hok
          rw [← houtP]
          exact stripPrimaryKeys_spec pf _

/-- Closed instance of the strip-primary theorem: updating and replacing
entity `3` (logical name `id`, column `_id`) with a payload carrying a
changed primary value leaves neither `id` nor `_id` in the adapter
payload. -/
theorem update_replace_strip_primary_witness :
    (hasKey [("name", 8)] "id" = false ∧ hasKey [("name", 8)] "_id" = false)
  ∧ (hasKey [("name", 9)] "id" = false ∧ hasKey [("name", 9)] "_id" = false) :=
  ⟨(update_replace_strip_primary ⟨"id", "_id", false⟩ id id (storeFind [[("_id", 3)]]) id
      (fun _ p => .ok p) ⟨[], []⟩ [("id", 3), ("name", 8)] false ⟨false, true, none⟩).1
      3 [("name", 8)] false rfl,
   (update_replace_strip_primary ⟨"id", "_id", false⟩ id id (storeFind [[("_id", 3)]]) id
      (fun _ p => .ok p) ⟨[], []⟩ [("id", 3), ("name", 9)] false ⟨false, true, none⟩).2
      3 [("name", 9)] rfl⟩

/-- C6. A successful remove call returns the original, pre-sanitization id
value read from the caller's params — not the decoded or re-encoded form —
regardless of whether the soft-delete or the hard-delete branch was
taken. -/
theorem remove_returns_orig_id (pf : PrimaryField) (dec enc : Int → Int)
    (find : Query → List Obj) (tf : Obj → Obj)
    (validate : String → Obj → Except DbError Obj) (settings : Settings)
    (softDelete : Bool) (payload : Obj) (opts : ResolveOpts)
    (v : Int) (hid : getField payload pf.name = some v) (r : Int)
    (hok : (removeEntity pf dec enc find tf validate settings softDelete payload opts).2
        = .ok r) :
    r = v := by
  unfold removeEntity at hok
  rw [hid] at hok
  dsimp only at hok
  split at hok
  · exact absurd hok (by simp)
  · split at hok
    · exact absurd hok (by simp)
    · split at hok
      · simp only [Except.ok.injEq] at hok
        exact hok.symm
      · simp only [Except.ok.injEq] at hok
        exact hok.symm

/-- Closed instance of the original-id theorem: with a secure primary
field whose decode adds `100`, removing id `5` (stored as `105`) returns
`5` itself, in both the hard-delete and soft-delete branches. -/
theorem remove_returns_orig_id_witness :
    ((removeEntity ⟨"id", "id", true⟩ (fun i => i + 100) id
        (storeFind [[("id", 105), ("note", 1)]]) id (fun _ p => .ok p) ⟨[], []⟩
        false [("id", 5), ("note", 1)] ⟨false, true, none⟩).2 = .ok 5 ∧ (5 : Int) = 5)
  ∧ ((removeEntity ⟨"id", "id", true⟩ (fun i => i + 100) id
        (storeFind [[("id", 105), ("note", 1)]]) id (fun _ p => .ok p) ⟨[], []⟩
        true [("id", 5), ("note", 1)] ⟨false, true, none⟩).2 = .ok 5 ∧ (5 : Int) = 5) :=
  ⟨⟨rfl, remove_returns_orig_id ⟨"id", "id", true⟩ (fun i => i + 100) id
      (storeFind [[("id", 105), ("note", 1)]]) id (fun _ p => .ok p) ⟨[], []⟩
      false [("id", 5), ("note", 1)] ⟨false, true, none⟩ 5 rfl 5 (by rfl)⟩,
   ⟨rfl, remove_returns_orig_id ⟨"id", "id", true⟩ (fun i => i + 100) id
      (storeFind [[("id", 105), ("note", 1)]]) id (fun _ p => .ok p) ⟨[], []⟩
      true [("id", 5), ("note", 1)] ⟨false, true, none⟩ 5 rfl 5 (by rfl)⟩⟩

theorem find?_mapSet_update_self (l : List (Option Int × Obj)) (k : Option Int) (v : Obj)
    (h : l.any (fun p => p.1 = k) = true) :
    (l.map (fun p => if p.1 = k then (k, v) else p)).find? (fun p => p.1 = k)
      = some (k, v) := by
  induction l with
  | nil => simp at h
  | cons hd tl ih =>
    by_cases hhd : hd.1 = k
    · simp only [List.map_cons, if_pos hhd]
      exact List.find?_cons_of_pos _ (by simp)
    · simp only [List.map_cons, if_neg hhd]
      rw [List.find?_cons_of_neg _ (by simp [hhd])]
      apply ih
      simp only [List.any_cons, Bool.or_eq_true] at h
      rcases h with h1 | h2
      · exact absurd (by simpa using h1) hhd
      · exact h2

theorem find?_mapSet_update_ne (l : List (Option Int × Obj)) (k : Option Int) (v : Obj)
    (k' : Option Int) (hne : k' ≠ k) :
    (l.map (fun p => if p.1 = k then (k, v) else p)).find? (fun p => p.1 = k')
      = l.find? (fun p => p.1 = k') := by
  induction l with
  | nil => rfl
  | cons hd tl ih =>
    by_cases hhd : hd.1 = k
    · simp only [List.map_cons, if_pos hhd]
      rw [List.find?_cons_of_neg _ (by simp; exact fun h => hne h.symm),
          List.find?_cons_of_neg _ (by simp [hhd]; exact fun h => hne h.symm), ih]
    · simp only [List.map_cons, if_neg hhd]
      by_cases hk' : hd.1 = k'
      · rw [List.find?_cons_of_pos _ (by simp [hk']), List.find?_cons_of_pos _ (by simp [hk'])]
      · rw [List.find?_cons_of_neg _ (by simp [hk']), List.find?_cons_of_neg _ (by simp [hk']),
            ih]

theorem mlookup_mapSet_self (m : List (Option Int × Obj)) (k : Option Int) (v : Obj) :
    mlookup (mapSet m k v) k = some v := by
  unfold mlookup mapSet
  by_cases hany : m.any (fun p => p.1 = k) = true
  · rw [if_pos hany, find?_mapSet_update_self m k v hany]
    rfl
  · rw [if_neg hany, List.find?_append]
    have hnone : m.find? (fun p => decide (p.1 = k)) = none := by
      rw [List.find?_eq_none]
      intro x hx hpx
      exact hany (List.any_eq_true.mpr ⟨x, hx, hpx⟩)
    rw [hnone]
    simp

theorem mlookup_mapSet_ne (m : List (Option Int × Obj)) (k : Option Int) (v : Obj)
    (k' : Option Int) (hne : k' ≠ k) :
    mlookup (mapSet m k v) k' = mlookup m k' := by
  unfold mlookup mapSet
  by_cases hany : m.any (fun p => p.1 = k) = true
  · rw [if_pos hany, find?_mapSet_update_ne m k v k' hne]
  · rw [if_neg hany, List.find?_append]
    have hlast : List.find? (fun p => decide (p.1 = k')) [(k, v)] = none := by
      simp
      exact fun h => hne h.symm
    rw [hlast]
    cases m.find? (fun p => decide (p.1 = k')) <;> rfl

theorem mlookup_foldMapping (pf : PrimaryField) (enc : Int → Int)
    (pairs : List (Obj × Obj)) (m0 : List (Option Int × Obj)) (k : Option Int) :
    mlookup (pairs.foldl (fun map pr => mapSet map (encodeKey pf enc pr.2) pr.1) m0) k
      = match pairs.reverse.find? (fun pr => decide (encodeKey pf enc pr.2 = k)) with
        | some pr => some pr.1
        | none => mlookup m0 k := by
  induction pairs generalizing m0 with
  | nil => rfl
  | cons pr rest ih =>
    rw [List.foldl_cons, ih, List.reverse_cons, List.find?_append]
    cases hfind : rest.reverse.find? (fun pr => decide (encodeKey pf enc pr.2 = k)) with
    | some x => rfl
    | none =>
      by_cases hk : encodeKey pf enc pr.2 = k
      · have h1 : List.find? (fun pr => decide (encodeKey pf enc pr.2 = k)) [pr]
            = some pr := by
          simp [hk]
        rw [h1]
        rw [← hk, mlookup_mapSet_self]
        rfl
      · have h1 : List.find? (fun pr => decide (encodeKey pf enc pr.2 = k)) [pr]
            = none := by
          simp [hk]
        rw [h1]
        rw [mlookup_mapSet_ne _ _ _ _ (fun h => hk h.symm)]
        rfl

/-- C1. A resolve call with `mapping: true` returns a mapping built from
the transformed entities keyed by the primary-column values of the
positionally aligned untransformed entities (re-encoded via `encodeID`
when the primary field is secure), folded in adapter-return order so that
a later entity with a duplicate id overwrites an earlier one (the lookup
of a key is the transformed entity of the LAST adapter-returned entity
with that key); in particular, resolving ids `[1, 2]` where only `1`
exists with `throwIfNotExist: false` yields a mapping containing only
key `1`. -/
theorem resolve_mapping_order_spec (pf : PrimaryField) (dec enc : Int → Int)
    (find : Query → List Obj) (tf : Obj → Obj) (settings : Settings)
    (params : ResolveParams) (opts : ResolveOpts) (r : ResolveResult)
    (hmap : params.mapping = true)
    (hok : resolveEntities pf dec enc find tf settings params opts = .ok r) :
    r = .mapping (buildMapping pf enc (resolvePairs pf dec find tf settings params opts))
  ∧ (∀ k, mlookup (buildMapping pf enc (resolvePairs pf dec find tf settings params opts)) k
      = ((resolvePairs pf dec find tf settings params opts).reverse.find?
          (fun pr => decide (encodeKey pf enc pr.2 = k))).map (fun pr => pr.1))
  ∧ resolveEntities ⟨"id", "id", false⟩ id id (storeFind [[("id", 1), ("x", 7)]]) id
      ⟨[], []⟩ ⟨.multi [1, 2], [], .undef, true⟩ ⟨false, true, none⟩
      = .ok (.mapping [(some 1, [("id", 1), ("x", 7)])]) := by
  refine ⟨?_, ?_, by rfl⟩
  · by_cases hm : params.id = IdInput.missing
    · unfold resolveEntities at hok
      rw [if_pos hm] at hok
      exact absurd hok (by simp)
    · unfold resolveEntities at hok
      rw [if_neg hm] at hok
      dsimp only at hok
      rw [hmap] at hok
      split at hok
      · exact absurd hok (by simp)
      · rw [if_pos rfl] at hok
        simp only [Except.ok.injEq] at hok
        exact hok.symm
  · intro k
    unfold buildMapping
    rw [mlookup_foldMapping]
    cases hfind : (resolvePairs pf dec find tf settings params opts).reverse.find?
        (fun pr => decide (encodeKey pf enc pr.2 = k)) <;> rfl

/-- Closed instance of the mapping theorem: the concrete two-id resolve
against a store holding only entity `1` produces exactly the mapping the
theorem predicts. -/
theorem resolve_mapping_order_spec_witness :
    ResolveResult.mapping [(some 1, [("id", 1), ("x", 7)])]
      = .mapping (buildMapping ⟨"id", "id", false⟩ id
          (resolvePairs ⟨"id", "id", false⟩ id (storeFind [[("id", 1), ("x", 7)]]) id
            ⟨[], []⟩ ⟨.multi [1, 2], [], .undef, true⟩ ⟨false, true, none⟩)) :=
  (resolve_mapping_order_spec ⟨"id", "id", false⟩ id id (storeFind [[("id", 1), ("x", 7)]])
    id ⟨[], []⟩ ⟨.multi [1, 2], [], .undef, true⟩ ⟨false, true, none⟩
    (.mapping [(some 1, [("id", 1), ("x", 7)])]) rfl (by rfl)).1


theorem regLookup_append_self (l : List (String × Nat)) (h : String) (a : Nat)
    (hn : regLookup l h = none) :
    regLookup (l ++ [(h, a)]) h = some a := by
  unfold regLookup at hn ⊢
  rw [List.find?_append]
  have hfl : l.find? (fun p => decide (p.1 = h)) = none := by
    cases hf : l.find? (fun p => decide (p.1 = h)) with
    | none => rfl
    | some x =>
      rw [hf] at hn
      simp at hn
  rw [hfl]
  simp

theorem runCalls_stable (hash : String) (a : Nat) (s : RegistryState)
    (h : regLookup s.adapters hash = some a) :
    ∀ n, runCalls hash n s = (List.replicate n a, s) := by
  intro n
  induction n with
  | zero => rfl
  | succ k ih =>
    have hg : getAdapter hash s = (a, s) := by
      unfold getAdapter
      rw [h]
    unfold runCalls
    dsimp only
    rw [hg, ih]
    rw [List.replicate_succ]

/-- C7. Adapter lookups are idempotent and entries are created at most
once per tenant hash: a `getAdapter` call on a hash that is already
registered returns that very adapter and leaves the registry untouched,
and any number of (interleaved, event-loop-sequentialized) calls on a
fresh hash all return the one adapter allocated by the first call, with
`_connect` initiated exactly once and exactly one registry entry created
for the hash. -/
theorem getAdapter_idempotent_once (s : RegistryState) (hash : String) (n : Nat) :
    (∀ a, regLookup s.adapters hash = some a → getAdapter hash s = (a, s))
  ∧ (regLookup s.adapters hash = none →
      (runCalls hash (n + 1) s).1 = List.replicate (n + 1) s.nextId
      ∧ (runCalls hash (n + 1) s).2.connects = s.connects ++ [s.nextId]
      ∧ countKey (runCalls hash (n + 1) s).2.adapters hash
          = countKey s.adapters hash + 1) := by
  constructor
  · intro a ha
    unfold getAdapter
    rw [ha]
  · intro hn
    have hg : getAdapter hash s
        = (s.nextId,
           ⟨s.adapters ++ [(hash, s.nextId)], s.nextId + 1, s.connects ++ [s.nextId]⟩) := by
      unfold getAdapter
      rw [hn]
    have hs1 : regLookup (s.adapters ++ [(hash, s.nextId)]) hash = some s.nextId :=
      regLookup_append_self _ _ _ hn
    have hrun : runCalls hash (n + 1) s
        = (s.nextId :: List.replicate n s.nextId,
           ⟨s.adapters ++ [(hash, s.nextId)], s.nextId + 1, s.connects ++ [s.nextId]⟩) := by
      unfold runCalls
      dsimp only
      rw [hg, runCalls_stable hash s.nextId _ hs1 n]
    rw [hrun]
    refine ⟨by rw [List.replicate_succ], rfl, ?_⟩
    unfold countKey
    rw [List.filter_append]
    simp

/-- Closed instance of the registry theorem: three calls on the empty
registry all receive adapter `0` and `_connect` is initiated once. -/
theorem getAdapter_idempotent_once_witness :
    (runCalls "default" 3 ⟨[], 0, []⟩).1 = List.replicate 3 0
  ∧ (runCalls "default" 3 ⟨[], 0, []⟩).2.connects = [] ++ [0] :=
  ⟨((getAdapter_idempotent_once ⟨[], 0, []⟩ "default" 2).2 rfl).1,
   ((getAdapter_idempotent_once ⟨[], 0, []⟩ "default" 2).2 rfl).2.1⟩

theorem earliestFailure_eq_none (l : List POutcome) (h : ∀ o ∈ l, o.err = none) :
    earliestFailure l = none := by
  induction l with
  | nil => rfl
  | cons o rest ih =>
    unfold earliestFailure
    rw [ih (fun x hx => h x (List.mem_cons_of_mem o hx))]
    have ho : o.err = none := h o (List.mem_cons_self o rest)
    simp [ho]

theorem earliestFailure_eq_none_mem (l : List POutcome) (h : earliestFailure l = none) :
    ∀ o ∈ l, o.err = none := by
  induction l with
  | nil =>
    intro o ho
    simp at ho
  | cons a rest ih =>
    unfold earliestFailure at h
    cases hrest : earliestFailure rest with
    | none =>
      rw [hrest] at h
      intro o ho
      rcases List.mem_cons.mp ho with rfl | hm
      · by_cases ha : o.err.isSome = true
        · rw [if_pos ha] at h
          exact absurd h (by simp)
        · simpa using ha
      · exact ih hrest o hm
    | some b =>
      rw [hrest] at h
      dsimp only at h
      split at h <;> simp at h

theorem earliestFailure_spec (l : List POutcome) (f : POutcome)
    (h : earliestFailure l = some f) :
    f ∈ l ∧ f.err.isSome = true ∧ ∀ o ∈ l, o.err.isSome = true → f.time ≤ o.time := by
  induction l generalizing f with
  | nil => simp [earliestFailure] at h
  | cons a rest ih =>
    unfold earliestFailure at h
    cases hrest : earliestFailure rest with
    | none =>
      rw [hrest] at h
      by_cases ha : a.err.isSome = true
      · rw [if_pos ha] at h
        obtain rfl : a = f := by simpa using h
        refine ⟨List.mem_cons_self _ _, ha, ?_⟩
        intro o ho hoerr
        rcases List.mem_cons.mp ho with rfl | hm
        · exact le_refl _
        · exact absurd hoerr (by
            have hnone := earliestFailure_eq_none_mem rest hrest o hm
            simp [hnone])
      · rw [if_neg ha] at h
        simp at h
    | some b =>
      rw [hrest] at h
      dsimp only at h
      obtain ⟨hbm, hbs, hbmin⟩ := ih b hrest
      by_cases hcond : (a.err.isSome && decide (a.time ≤ b.time)) = true
      · rw [if_pos hcond] at h
        obtain rfl : a = f := by simpa using h
        obtain ⟨has, hale⟩ : a.err.isSome = true ∧ a.time ≤ b.time := by simpa using hcond
        refine ⟨List.mem_cons_self _ _, has, ?_⟩
        intro o ho hoerr
        rcases List.mem_cons.mp ho with rfl | hm
        · exact le_refl _
        · exact le_trans hale (hbmin o hm hoerr)
      · rw [if_neg hcond] at h
        obtain rfl : b = f := by simpa using h
        refine ⟨List.mem_cons_of_mem _ hbm, hbs, ?_⟩
        intro o ho hoerr
        rcases List.mem_cons.mp ho with rfl | hm
        · have hnle : ¬ (o.time ≤ b.time) := by
            intro hle
            exact hcond (by simp [hoerr, hle])
          exact le_of_lt (lt_of_not_le hnle)
        · exact hbmin o hm hoerr

theorem le_maxSettleTime (l : List POutcome) (o : POutcome) (h : o ∈ l) :
    o.time ≤ maxSettleTime l := by
  induction l with
  | nil => simp at h
  | cons a rest ih =>
    unfold maxSettleTime at ih ⊢
    rw [List.foldr_cons]
    rcases List.mem_cons.mp h with rfl | hm
    · exact le_max_left _ _
    · exact le_trans (ih hm) (le_max_right _ _)

/-- C8, counterexample. `disconnectAll` aggregates with `Promise.all`,
which rejects at the FIRST disconnect failure: with one adapter failing at
time 1 and another still disconnecting until time 5, the returned promise
settles at time 1, before every individual disconnect has settled; and
with two failures only the first one is reported, not an aggregate. -/
theorem disconnectAll_settle_counterexample :
    (disconnectAll [("default", ⟨true, ⟨1, some "e1"⟩⟩),
        ("t2", ⟨true, ⟨5, none⟩⟩)]).2.2.time = 1
  ∧ (⟨5, none⟩ : POutcome) ∈ (disconnectAll [("default", ⟨true, ⟨1, some "e1"⟩⟩),
        ("t2", ⟨true, ⟨5, none⟩⟩)]).2.1
  ∧ (1 : Nat) < 5
  ∧ (disconnectAll [("a", ⟨true, ⟨1, some "e1"⟩⟩),
        ("b", ⟨true, ⟨7, some "e2"⟩⟩)]).2.2.err = some "e1" := by
  refine ⟨rfl, by decide, by decide, rfl⟩

/-- C8, amended. `disconnectAll` clears the registry and initiates a
disconnect on every registered adapter (a failure does not prevent the
others, which were all started up front); the returned promise fulfils at
the settle time of the last disconnect when all succeed, but on any
failure it rejects with the single earliest-settling failure at that
failure's settle time, without waiting for the remaining disconnects and
without aggregating the other failures. -/
theorem disconnectAll_amended (reg : List (String × DAdapter)) :
    (disconnectAll reg).1 = []
  ∧ (disconnectAll reg).2.1 = (reg.map (fun p => p.2)).map discOutcome
  ∧ ((∀ o ∈ (disconnectAll reg).2.1, o.err = none) →
      (disconnectAll reg).2.2 = ⟨maxSettleTime ((disconnectAll reg).2.1), none⟩
      ∧ ∀ o ∈ (disconnectAll reg).2.1, o.time ≤ (disconnectAll reg).2.2.time)
  ∧ (∀ f, earliestFailure ((disconnectAll reg).2.1) = some f →
      (disconnectAll reg).2.2 = ⟨f.time, f.err⟩
      ∧ f ∈ (disconnectAll reg).2.1
      ∧ f.err.isSome = true
      ∧ ∀ o ∈ (disconnectAll reg).2.1, o.err.isSome = true → f.time ≤ o.time) := by
  refine ⟨rfl, rfl, ?_, ?_⟩
  · intro hall
    have hn : earliestFailure ((disconnectAll reg).2.1) = none :=
      earliestFailure_eq_none _ hall
    constructor
    · show promiseAll ((disconnectAll reg).2.1) = _
      unfold promiseAll
      rw [hn]
    · intro o ho
      have hle := le_maxSettleTime _ o ho
      show o.time ≤ (promiseAll ((disconnectAll reg).2.1)).time
      unfold promiseAll
      rw [hn]
      exact hle
  · intro f hf
    have hspec := earliestFailure_spec _ f hf
    refine ⟨?_, hspec.1, hspec.2.1, hspec.2.2⟩
    show promiseAll ((disconnectAll reg).2.1) = _
    unfold promiseAll
    rw [hf]

/-- Closed instance of the amended `disconnectAll` theorem: the two-adapter
registry with an early failure rejects with exactly that failure. -/
theorem disconnectAll_amended_witness :
    (disconnectAll [("default", DAdapter.mk true ⟨1, some "e1"⟩),
        ("t2", DAdapter.mk true ⟨5, none⟩)]).2.2 = ⟨1, some "e1"⟩
  ∧ (⟨1, some "e1"⟩ : POutcome) ∈ (disconnectAll [("default", DAdapter.mk true ⟨1, some "e1"⟩),
        ("t2", DAdapter.mk true ⟨5, none⟩)]).2.1 :=
  ⟨((disconnectAll_amended [("default", DAdapter.mk true ⟨1, some "e1"⟩),
        ("t2", DAdapter.mk true ⟨5, none⟩)]).2.2.2 ⟨1, some "e1"⟩ (by decide)).1,
   ((disconnectAll_amended [("default", DAdapter.mk true ⟨1, some "e1"⟩),
        ("t2", DAdapter.mk true ⟨5, none⟩)]).2.2.2 ⟨1, some "e1"⟩ (by decide)).2.1⟩

/-- C10, counterexample. A remove call does NOT validate before touching
the adapter: in a concrete run whose validator rejects type `remove`, the
first collaborator call in the trace is the adapter read `find` performed
by the existence check, and the validation only happens second (the call
then aborts with the validation error before any mutating adapter call). -/
theorem remove_validate_order_counterexample :
    (removeEntity ⟨"id", "id", false⟩ id id (storeFind [[("id", 5)]]) id
        (fun t p => if t = "remove" then .error .validationFailed else .ok p) ⟨[], []⟩
        false [("id", 5)] ⟨false, true, none⟩).1
      = [.evFind [("id", .qint 5)], .evValidate "remove" [("id", 5)]]
  ∧ isAdapterEvent (OpEvent.evFind [("id", QVal.qint 5)]) = true
  ∧ (removeEntity ⟨"id", "id", false⟩ id id (storeFind [[("id", 5)]]) id
        (fun t p => if t = "remove" then .error .validationFailed else .ok p) ⟨[], []⟩
        false [("id", 5)] ⟨false, true, none⟩).2 = .error .validationFailed :=
  ⟨rfl, rfl, rfl⟩

/-- C10, amended. Every remove call that reaches the adapter mutation
validates the caller's payload against type `remove` before the mutating
adapter call, in both the soft-delete and the hard-delete branch (though
after the adapter read of the existence check); consequently a
`ValidationFailed` error aborts the remove before `updateById`/`removeById`
is invoked — the trace contains no mutating adapter event and the call
does not succeed, so the stored entity is untouched. -/
theorem remove_validate_before_mutation (pf : PrimaryField) (dec enc : Int → Int)
    (find : Query → List Obj) (tf : Obj → Obj)
    (validate : String → Obj → Except DbError Obj) (settings : Settings)
    (softDelete : Bool) (payload : Obj) (opts : ResolveOpts) :
    validatedBeforeMutation "remove" payload
      (removeEntity pf dec enc find tf validate settings softDelete payload opts).1 = true
  ∧ (∀ e, validate "remove" payload = .error e →
      ((removeEntity pf dec enc find tf validate settings softDelete payload opts).1.all
        (fun ev => !isMutationEvent ev)) = true)
  ∧ (∀ e, validate "remove" payload = .error e →
      ∀ r, (removeEntity pf dec enc find tf validate settings softDelete payload opts).2
        ≠ .ok r) := by
  unfold removeEntity
  split
  · exact ⟨rfl, fun e he => rfl, fun e he r hok => absurd hok (by simp)⟩
  · split
    · exact ⟨rfl, fun e he => rfl, fun e he r hok => absurd hok (by simp)⟩
    · split
      · next e' hval =>
        refine ⟨?_, fun e he => rfl, fun e he r hok => absurd hok (by simp)⟩
        simp [validatedBeforeMutation, isMutationEvent]
      · next vparams hval =>
        split
        · refine ⟨?_, fun e he => ?_, fun e he r hok => ?_⟩
          · simp [validatedBeforeMutation, isMutationEvent]
          · rw [hval] at he
            cases he
          · rw [hval] at he
            cases he
        · refine ⟨?_, fun e he => ?_, fun e he r hok => ?_⟩
          · simp [validatedBeforeMutation, isMutationEvent]
          · rw [hval] at he
            cases he
          · rw [hval] at he
            cases he

/-- Closed instance of the amended remove-validation theorem: the failing
concrete run validates before any mutating adapter call and never reaches
`removeById`. -/
theorem remove_validate_before_mutation_witness :
    validatedBeforeMutation "remove" [("id", 5)]
      (removeEntity ⟨"id", "id", false⟩ id id (storeFind [[("id", 5)]]) id
        (fun t p => if t = "remove" then .error .validationFailed else .ok p) ⟨[], []⟩
        false [("id", 5)] ⟨false, true, none⟩).1 = true
  ∧ ((removeEntity ⟨"id", "id", false⟩ id id (storeFind [[("id", 5)]]) id
        (fun t p => if t = "remove" then .error .validationFailed else .ok p) ⟨[], []⟩
        false [("id", 5)] ⟨false, true, none⟩).1.all
        (fun ev => !isMutationEvent ev)) = true :=
  ⟨(remove_validate_before_mutation ⟨"id", "id", false⟩ id id (storeFind [[("id", 5)]]) id
      (fun t p => if t = "remove" then .error .validationFailed else .ok p) ⟨[], []⟩
      false [("id", 5)] ⟨false, true, none⟩).1,
   (remove_validate_before_mutation ⟨"id", "id", false⟩ id id (storeFind [[("id", 5)]]) id
      (fun t p => if t = "remove" then .error .validationFailed else .ok p) ⟨[], []⟩
      false [("id", 5)] ⟨false, true, none⟩).2.1 .validationFailed rfl⟩
